import Mathlib

/-!
Shallow embedding of `prodinf-srv/event_app.py`: a Flask service that routes
incoming events to Hive pipeline jobs.  The handlers are modelled as pure
functions threading the process-wide connection cache (`hives`) explicitly and
recording observable side effects (log lines, message-bus publishes, backend
job creations/deletions, task dispatches) as an effect trace.  External
systems (the Hive backend, the Celery task queue) are modelled as oracle
functions bundled in a `World`.
-/

namespace EventApp

/-- JSON documents, as handled by Flask's `request.json` / `jsonify`.
Numbers are modelled as integers; no claim depends on fractional values. -/
inductive Json where
  | null
  | bool (b : Bool)
  | num (n : Int)
  | str (s : String)
  | arr (elems : List Json)
  | obj (fields : List (String × Json))

/-- Python `dict` lookup on an association list (first matching key). -/
def assocFind {α : Type} : List (String × α) → String → Option α
  | [], _ => none
  | (k, v) :: rest, key => if k = key then some v else assocFind rest key

/-- Python `dict` assignment `d[k] = v`: replace in place if the key exists,
else append at the end (insertion order). -/
def setAssoc : List (String × Json) → String → Json → List (String × Json)
  | [], k, v => [(k, v)]
  | (k', v') :: rest, k, v =>
      if k' = k then (k', v) :: rest else (k', v') :: setAssoc rest k v

/-- `event['type']`-style field access; `none` models a KeyError (absent key)
or a TypeError (subscripting a non-dict with a string key). -/
def Json.getField : Json → String → Option Json
  | .obj fields, k => assocFind fields k
  | _, _ => none

/-- Whether a JSON value is hashable in Python (usable as a dict key). -/
def Json.hashable : Json → Bool
  | .arr _ => false
  | .obj _ => false
  | _ => true

/-- Python `str()` of a scalar JSON value, as interpolated into error
messages (`'Event type %s not known' % event_type`). -/
def pyStr : Json → String
  | .null => "None"
  | .bool true => "True"
  | .bool false => "False"
  | .num n => toString n
  | .str s => s
  | .arr _ => "<list>"
  | .obj _ => "<dict>"

/-- Errors a handler can raise.  `httpRequestError m s` models
`HTTPRequestError(m, s)`; `uncaught` models a Python exception with no
registered Flask error handler (KeyError, TypeError, AttributeError,
a ValueError outside any try block). -/
inductive AppError where
  | httpRequestError (msg : String) (status : Nat)
  | eventNotFound (msg : String)
  | processNotFound (msg : String)
  | uncaught (msg : String)
deriving DecidableEq, Repr

/-- Modelled from the spec: `HTTPRequestError` (from the repository's
`ensembl_prodinf.exceptions`, not under `src/`) raised without an explicit
status code carries HTTP 400 — the spec maps locally-detected input errors
(bad content type, missing `email`, unknown `format`) to HTTP 400. -/
def httpRequestError400 (msg : String) : AppError :=
  .httpRequestError msg 400

/-- Modelled from the spec: a Report record as built by `make_report` from the
repository's `ensembl_prodinf.reporting` (not under `src/`):
`{report_type: level, msg: message}` plus formatter metadata that no
behaviour here depends on. -/
structure Report where
  report_type : String
  msg : String
deriving DecidableEq, Repr

/-- Modelled from the spec: `make_report(level, msg)` constructs the Report
record `{report_type: level, msg: msg}`. -/
def make_report (level : String) (msg : String) : Report :=
  { report_type := level, msg := msg }

/-- Observable side effects of a request, in order of occurrence. -/
inductive Effect where
  | logged (severity : Nat) (msg : String)
  | published (routingKey : String) (rpt : Report)
  | publishFailed (routingKey : String) (rpt : Report)
  | jobCreated (hiveUri : String) (analysis : String) (payload : Json) (jobId : Nat)
  | taskDispatched (process : String) (jobId : Nat) (taskId : String)
  | jobDeleted (hiveUri : String) (jobId : Nat)

/-- `getattr(logging, level)`: the numeric severity of a Python `logging`
level name, `none` when the attribute does not exist (AttributeError). -/
def getattrLogging : String → Option Nat
  | "NOTSET" => some 0
  | "DEBUG" => some 10
  | "INFO" => some 20
  | "WARN" => some 30
  | "WARNING" => some 30
  | "ERROR" => some 40
  | "CRITICAL" => some 50
  | _ => none

/-- Modelled from the spec: `AMQPPublisher.publish` (from the repository's
`ensembl_prodinf.amqp_publishing`, not under `src/`) is fire-and-forget: a
message-bus failure degrades to a locally-reported condition and never
propagates an exception to the caller.  `publishOk` says whether the bus is
reachable. -/
def publisherPublish (publishOk : Bool) (rpt : Report) (routingKey : String) : List Effect :=
  if publishOk then [Effect.published routingKey rpt]
  else [Effect.publishFailed routingKey rpt]

/-- Python `str.lower()` on the ASCII level names used for routing keys. -/
def pyLower (s : String) : String :=
  ⟨s.data.map Char.toLower⟩

/-- `log_and_publish(report)`: compute the routing key
`'report.' + level.lower()`, write the message to the local log at the
severity named by the report's level, then publish to the message bus. -/
def log_and_publish (publishOk : Bool) (report : Report) : Except AppError (List Effect) :=
  let level := report.report_type
  let routing_key := "report." ++ pyLower level
  match getattrLogging level with
  | none => .error (.uncaught ("AttributeError: " ++ level))
  | some severity =>
      .ok ([Effect.logged severity report.msg] ++ publisherPublish publishOk report routing_key)

/-- One entry of the process lookup document:
`{hive_uri: string, analysis: string}`. -/
structure ProcRecord where
  hive_uri : String
  analysis : String
deriving DecidableEq, Repr

/-- A cached Hive connection: `HiveInstance(hive_uri)`. -/
structure HiveInstance where
  hive_uri : String
deriving DecidableEq, Repr

/-- The process-wide `hives` cache, in insertion order. -/
abbrev HiveCache := List (String × HiveInstance)

/-- Oracles for the external systems: the Hive backend operations (keyed by
the backend URI) and the Celery task queue; `.error m` models a ValueError
with message `m`.  `publishOk` is the message-bus reachability. -/
structure World where
  create_job : String → String → Json → Except String Nat
  get_job_by_id : String → Nat → Except String Nat
  get_result_for_job_id : String → Nat → Except String Json
  delete_job : String → Nat → Except String Unit
  delay_id : String → Nat → String
  publishOk : Bool

/-- `get_processes_for_event(event)`: read `event['type']` and look it up in
the event lookup table. -/
def get_processes_for_event (elook : List (String × List String)) (event : Json) :
    Except AppError (List String) :=
  match event.getField "type" with
  | none => .error (.uncaught "KeyError: type")
  | some tv =>
      if tv.hashable then
        match tv with
        | .str t =>
            match assocFind elook t with
            | none => .error (.eventNotFound ("Event type " ++ pyStr tv ++ " not known"))
            | some ps => .ok ps
        | _ => .error (.eventNotFound ("Event type " ++ pyStr tv ++ " not known"))
      else .error (.uncaught "TypeError: unhashable type")

/-- `get_analysis(process)`: the analysis identifier from the process lookup
table, else `ProcessNotFoundError`. -/
def get_analysis (plook : List (String × ProcRecord)) (process : String) :
    Except AppError String :=
  match assocFind plook process with
  | none => .error (.processNotFound ("Process " ++ process ++ " not known"))
  | some pr => .ok pr.analysis

/-- `get_hive(process)`: return the cached connection if present; otherwise
check the process lookup table, construct `HiveInstance(hive_uri)` and store
it.  Returns the (possibly extended) cache alongside the outcome. -/
def get_hive (plook : List (String × ProcRecord)) (hives : HiveCache) (process : String) :
    Except AppError HiveInstance × HiveCache :=
  match assocFind hives process with
  | some h => (.ok h, hives)
  | none =>
      match assocFind plook process with
      | none => (.error (.processNotFound ("Process " ++ process ++ " not known")), hives)
      | some pr => (.ok { hive_uri := pr.hive_uri },
                    hives ++ [(process, { hive_uri := pr.hive_uri })])

/-- The body of the `for process in processes` loop of `submit_job`: publish a
DEBUG report, obtain the Hive connection, resolve the analysis, create the job
(`ValueError` → `HTTPRequestError(msg, 404)`), dispatch the Celery result task
and accumulate the `{process, job, task}` entry.  A raised exception aborts
the loop, keeping the side effects already performed. -/
def submit_loop (w : World) (plook : List (String × ProcRecord)) (event : Json) :
    List String → HiveCache → Except AppError (List Json) × List Effect × HiveCache
  | [], hives => (.ok [], [], hives)
  | process :: rest, hives =>
      match log_and_publish w.publishOk (make_report "DEBUG" ("Submitting process " ++ process)) with
      | .error e => (.error e, [], hives)
      | .ok eff0 =>
          match get_hive plook hives process with
          | (.error e, hives') => (.error e, eff0, hives')
          | (.ok hive, hives') =>
              match get_analysis plook process with
              | .error e => (.error e, eff0, hives')
              | .ok analysis =>
                  match w.create_job hive.hive_uri analysis (Json.obj [("event", event)]) with
                  | .error m => (.error (.httpRequestError m 404), eff0, hives')
                  | .ok job_id =>
                      let task_id := w.delay_id process job_id
                      let entry := Json.obj [("process", Json.str process),
                                             ("job", Json.num job_id),
                                             ("task", Json.str task_id)]
                      let effs := eff0 ++
                        [Effect.jobCreated hive.hive_uri analysis (Json.obj [("event", event)]) job_id,
                         Effect.taskDispatched process job_id task_id]
                      match submit_loop w plook event rest hives' with
                      | (.ok entries, effs', hives'') => (.ok (entry :: entries), effs ++ effs', hives'')
                      | (.error e, effs', hives'') => (.error e, effs ++ effs', hives'')

/-- `re.match(json_pattern, content_type)` where
`json_pattern = re.compile("application/json")`: the pattern has no
metacharacters and `re.match` anchors only at the start, so it succeeds
exactly when the content type starts with `application/json` (a charset
suffix after it is tolerated). -/
def matchesJson (content_type : String) : Bool :=
  "application/json".data.isPrefixOf content_type.data

/-- `submit_job` (`POST /jobs`): reject non-JSON content types
(`re.match("application/json", ...)` is an unanchored-at-end prefix match, so
a charset suffix is tolerated), resolve the event's processes and fan out one
job per process, returning `{processes: [...], event: event}`. -/
def submit_job (w : World) (elook : List (String × List String))
    (plook : List (String × ProcRecord)) (hives : HiveCache)
    (content_type : String) (event : Json) :
    Except AppError Json × List Effect × HiveCache :=
  if matchesJson content_type then
    match get_processes_for_event elook event with
    | .error e => (.error e, [], hives)
    | .ok processes =>
        match submit_loop w plook event processes hives with
        | (.ok entries, effs, hives') =>
            (.ok (Json.obj [("processes", Json.arr entries), ("event", event)]), effs, hives')
        | (.error e, effs, hives') => (.error e, effs, hives')
  else
    (.error (httpRequestError400 ("Could not handle input of type " ++ content_type)), [], hives)

/-- `results(process, job_id)`: publish an INFO report, then fetch the raw
result document (`ValueError` → `HTTPRequestError(msg, 404)`). -/
def results (w : World) (plook : List (String × ProcRecord)) (hives : HiveCache)
    (process : String) (job_id : Nat) :
    Except AppError Json × List Effect × HiveCache :=
  match log_and_publish w.publishOk
      (make_report "INFO" ("Retrieving job from " ++ process ++ " with ID " ++ toString job_id)) with
  | .error e => (.error e, [], hives)
  | .ok effs =>
      match get_hive plook hives process with
      | (.error e, hives') => (.error e, effs, hives')
      | (.ok hive, hives') =>
          match w.get_result_for_job_id hive.hive_uri job_id with
          | .error m => (.error (.httpRequestError m 404), effs, hives')
          | .ok r => (.ok r, effs, hives')

/-- `results_email(email, process, job_id)`: publish an INFO report, fetch the
job and its result, then attach the email under the `email` key of the result
document (`results['email'] = email`) — no email is sent. -/
def results_email (w : World) (plook : List (String × ProcRecord)) (hives : HiveCache)
    (email : String) (process : String) (job_id : Nat) :
    Except AppError Json × List Effect × HiveCache :=
  match log_and_publish w.publishOk
      (make_report "INFO" ("Retrieving job with ID " ++ toString job_id ++ " for " ++ email)) with
  | .error e => (.error e, [], hives)
  | .ok effs =>
      match get_hive plook hives process with
      | (.error e, hives') => (.error e, effs, hives')
      | (.ok hive, hives') =>
          match w.get_job_by_id hive.hive_uri job_id with
          | .error m => (.error (.httpRequestError m 404), effs, hives')
          | .ok _ =>
              match w.get_result_for_job_id hive.hive_uri job_id with
              | .error m => (.error (.httpRequestError m 404), effs, hives')
              | .ok result =>
                  match result with
                  | Json.obj fields =>
                      (.ok (Json.obj (setAssoc fields "email" (Json.str email))), effs, hives')
                  | _ => (.error (.uncaught "TypeError: item assignment"), effs, hives')

/-- `job(process, job_id)` (`GET /jobs/{process}/{jobId}`): dispatch on the
`format` query parameter — `email` (requiring the `email` parameter), absent
(raw result), or any other value (`Format ... not known`). -/
def job (w : World) (plook : List (String × ProcRecord)) (hives : HiveCache)
    (process : String) (job_id : Nat)
    (output_format : Option String) (email_arg : Option String) :
    Except AppError Json × List Effect × HiveCache :=
  match output_format with
  | some "email" =>
      match email_arg with
      | none => (.error (httpRequestError400 "Email not specified"), [], hives)
      | some email => results_email w plook hives email process job_id
  | none => results w plook hives process job_id
  | some f => (.error (httpRequestError400 ("Format " ++ f ++ " not known")), [], hives)

/-- `delete_job(process, job_id)` (`DELETE /jobs/{process}/{jobId}`): fetch
the job (a ValueError here is outside any try block, hence uncaught), delete
it (`ValueError` → `HTTPRequestError(msg, 404)`), and return
`{id: job_id, process: process}`. -/
def delete_job (w : World) (plook : List (String × ProcRecord)) (hives : HiveCache)
    (process : String) (job_id : Nat) :
    Except AppError Json × List Effect × HiveCache :=
  match get_hive plook hives process with
  | (.error e, hives') => (.error e, [], hives')
  | (.ok hive, hives') =>
      match w.get_job_by_id hive.hive_uri job_id with
      | .error m => (.error (.uncaught ("ValueError: " ++ m)), [], hives')
      | .ok jb =>
          match w.delete_job hive.hive_uri jb with
          | .error m => (.error (.httpRequestError m 404), [], hives')
          | .ok _ =>
              (.ok (Json.obj [("id", Json.num job_id), ("process", Json.str process)]),
               [Effect.jobDeleted hive.hive_uri jb], hives')

/-- Flask error translation: the registered `@app.errorhandler` functions log
the message at ERROR severity (40) and return `jsonify(error=str(e))` with the
status code (`e.status_code` for `HTTPRequestError`, 404 for the two
not-found exceptions).  An exception with no registered handler is answered by
the framework with a generic 500 page (framework behaviour, not repo code). -/
def handle_error : AppError → (Nat × Json) × List Effect
  | .httpRequestError m s => ((s, Json.obj [("error", Json.str m)]), [Effect.logged 40 m])
  | .eventNotFound m => ((404, Json.obj [("error", Json.str m)]), [Effect.logged 40 m])
  | .processNotFound m => ((404, Json.obj [("error", Json.str m)]), [Effect.logged 40 m])
  | .uncaught m => ((500, Json.str "Internal Server Error"), [Effect.logged 40 m])

/-- Run a handler outcome through the error-translation layer: a normal
return is an HTTP 200 with the handler's JSON body. -/
def run_route (r : Except AppError Json × List Effect × HiveCache) :
    (Nat × Json) × List Effect × HiveCache :=
  match r with
  | (.ok j, effs, h) => ((200, j), effs, h)
  | (.error e, effs, h) =>
      let (resp, eff2) := handle_error e
      (resp, effs ++ eff2, h)

/-- `POST /jobs` as seen on the wire: status code and JSON body. -/
def http_submit_job (w : World) (elook : List (String × List String))
    (plook : List (String × ProcRecord)) (hives : HiveCache)
    (content_type : String) (event : Json) :
    (Nat × Json) × List Effect × HiveCache :=
  run_route (submit_job w elook plook hives content_type event)

/-- `GET /jobs/{process}/{jobId}` as seen on the wire. -/
def http_job (w : World) (plook : List (String × ProcRecord)) (hives : HiveCache)
    (process : String) (job_id : Nat)
    (output_format : Option String) (email_arg : Option String) :
    (Nat × Json) × List Effect × HiveCache :=
  run_route (job w plook hives process job_id output_format email_arg)

/-- `DELETE /jobs/{process}/{jobId}` as seen on the wire. -/
def http_delete_job (w : World) (plook : List (String × ProcRecord)) (hives : HiveCache)
    (process : String) (job_id : Nat) :
    (Nat × Json) × List Effect × HiveCache :=
  run_route (delete_job w plook hives process job_id)

/-- Effects that only report activity (local log line or message-bus
publish attempt), as opposed to backend mutations or task dispatches. -/
def Effect.isReport : Effect → Bool
  | .logged _ _ => true
  | .published _ _ => true
  | .publishFailed _ _ => true
  | _ => false

/-- The effects of the DEBUG report published for one process inside the
`submit_job` loop. -/
def debugEffects (pk : Bool) (p : String) : List Effect :=
  [Effect.logged 10 ("Submitting process " ++ p)] ++
    publisherPublish pk (make_report "DEBUG" ("Submitting process " ++ p)) "report.debug"

/-- The full effect list of one successful iteration of the `submit_job`
loop for process `p`, given its process record and assigned job id. -/
def stepEffects (w : World) (event : Json) (pr : ProcRecord) (p : String) (j : Nat) : List Effect :=
  debugEffects w.publishOk p ++
    [Effect.jobCreated pr.hive_uri pr.analysis (Json.obj [("event", event)]) j,
     Effect.taskDispatched p j (w.delay_id p j)]

/-- The `{process, job, task}` entry accumulated by `submit_job` for one
process (the task id being the one the Celery dispatch returns). -/
def submitEntry (w : World) (p : String) (j : Nat) : Json :=
  Json.obj [("process", Json.str p), ("job", Json.num j),
            ("task", Json.str (w.delay_id p j))]

/-- A concrete world where every backend operation succeeds. -/
def demoWorld : World :=
  { create_job := fun _ _ _ => .ok 7
  , get_job_by_id := fun _ j => .ok j
  , get_result_for_job_id := fun _ _ => .ok (Json.obj [("status", Json.str "complete")])
  , delete_job := fun _ _ => .ok ()
  , delay_id := fun p j => p ++ "-task-" ++ toString j
  , publishOk := true }

/-- A concrete event lookup table: one event type mapping to two processes. -/
def demoElook : List (String × List String) := [("assembly", ["proc_a", "proc_b"])]

/-- A concrete process lookup table matching `demoElook`. -/
def demoPlook : List (String × ProcRecord) :=
  [("proc_a", { hive_uri := "mysql://a", analysis := "an_a" }),
   ("proc_b", { hive_uri := "mysql://b", analysis := "an_b" })]

/-- The response-and-cache skeleton of `submit_loop`: the same computation
with the effect trace erased and the `World` restricted to the oracles the
response depends on.  Used to show responses do not depend on message-bus
reachability. -/
def submit_loop_core (cj : String → String → Json → Except String Nat)
    (di : String → Nat → String) (plook : List (String × ProcRecord)) (event : Json) :
    List String → HiveCache → Except AppError (List Json) × HiveCache
  | [], hives => (.ok [], hives)
  | process :: rest, hives =>
      match get_hive plook hives process with
      | (.error e, hives') => (.error e, hives')
      | (.ok hive, hives') =>
          match get_analysis plook process with
          | .error e => (.error e, hives')
          | .ok analysis =>
              match cj hive.hive_uri analysis (Json.obj [("event", event)]) with
              | .error m => (.error (.httpRequestError m 404), hives')
              | .ok job_id =>
                  match submit_loop_core cj di plook event rest hives' with
                  | (.ok entries, hives'') =>
                      (.ok (Json.obj [("process", Json.str process),
                                      ("job", Json.num job_id),
                                      ("task", Json.str (di process job_id))] :: entries),
                       hives'')
                  | (.error e, hives'') => (.error e, hives'')

/-- The response-and-cache skeleton of `submit_job` (see `submit_loop_core`). -/
def submit_job_core (cj : String → String → Json → Except String Nat)
    (di : String → Nat → String) (elook : List (String × List String))
    (plook : List (String × ProcRecord)) (hives : HiveCache)
    (content_type : String) (event : Json) :
    Except AppError Json × HiveCache :=
  if matchesJson content_type then
    match get_processes_for_event elook event with
    | .error e => (.error e, hives)
    | .ok processes =>
        match submit_loop_core cj di plook event processes hives with
        | (.ok entries, hives') =>
            (.ok (Json.obj [("processes", Json.arr entries), ("event", event)]), hives')
        | (.error e, hives') => (.error e, hives')
  else
    (.error (httpRequestError400 ("Could not handle input of type " ++ content_type)), hives)

/-! ### Helper lemmas -/

lemma assocFind_append {α : Type} (l1 l2 : List (String × α)) (k : String) :
    assocFind (l1 ++ l2) k =
      match assocFind l1 k with
      | some v => some v
      | none => assocFind l2 k := by
  induction l1 with
  | nil => simp [assocFind]
  | cons kv rest ih =>
      obtain ⟨k', v'⟩ := kv
      by_cases h : k' = k <;> simp [assocFind, h, ih]

lemma assocFind_eq_none_iff {α : Type} (l : List (String × α)) (k : String) :
    assocFind l k = none ↔ k ∉ l.map Prod.fst := by
  induction l with
  | nil => simp [assocFind]
  | cons kv rest ih =>
      obtain ⟨k', v'⟩ := kv
      by_cases h : k' = k
      · subst h; simp [assocFind]
      · simp [assocFind, h, ih, Ne.symm h]

lemma log_and_publish_DEBUG (pk : Bool) (m : String) :
    log_and_publish pk (make_report "DEBUG" m) =
      .ok ([Effect.logged 10 m] ++ publisherPublish pk (make_report "DEBUG" m) "report.debug") :=
  rfl

lemma log_and_publish_INFO (pk : Bool) (m : String) :
    log_and_publish pk (make_report "INFO" m) =
      .ok ([Effect.logged 20 m] ++ publisherPublish pk (make_report "INFO" m) "report.info") :=
  rfl

/-- `get_hive` under a cache whose entry for `p` (if any) agrees with the
process lookup table: the returned connection carries the table's URI and the
cache either is untouched or gains exactly the entry for `p`. -/
lemma get_hive_coherent (plook : List (String × ProcRecord)) (hives : HiveCache)
    (p : String) (pr : ProcRecord)
    (hp : assocFind plook p = some pr)
    (hc : ∀ h : HiveInstance, assocFind hives p = some h → h.hive_uri = pr.hive_uri) :
    ∃ hives', get_hive plook hives p = (.ok { hive_uri := pr.hive_uri }, hives')
      ∧ (∀ q h, assocFind hives' q = some h →
            assocFind hives q = some h ∨ (q = p ∧ h = { hive_uri := pr.hive_uri })) := by
  unfold get_hive
  cases hcache : assocFind hives p with
  | some h =>
      have huri : h = { hive_uri := pr.hive_uri } :=
        congrArg HiveInstance.mk (hc h hcache)
      exact ⟨hives, by rw [huri], fun q h' hq => Or.inl hq⟩
  | none =>
      rw [hp]
      refine ⟨hives ++ [(p, { hive_uri := pr.hive_uri })], rfl, ?_⟩
      intro q h' hq
      rw [assocFind_append] at hq
      cases hq2 : assocFind hives q with
      | some v =>
          rw [hq2] at hq
          exact Or.inl hq
      | none =>
          rw [hq2] at hq
          by_cases hpq : p = q
          · subst hpq
            simp [assocFind] at hq
            exact Or.inr ⟨rfl, hq.symm⟩
          · simp [assocFind, hpq] at hq

/-! ### Claim theorems -/

/-- C5: a `POST /jobs` whose Content-Type does not match `application/json`
(prefix match, so a charset suffix is tolerated) is answered with HTTP 400
and body `{error: message}`, regardless of the request body. -/
theorem submit_job_content_type_reject (w : World) (elook : List (String × List String))
    (plook : List (String × ProcRecord)) (hives : HiveCache)
    (content_type : String) (event : Json)
    (h : matchesJson content_type = false) :
    http_submit_job w elook plook hives content_type event =
      ((400, Json.obj [("error", Json.str ("Could not handle input of type " ++ content_type))]),
       [Effect.logged 40 ("Could not handle input of type " ++ content_type)], hives) := by
  simp [http_submit_job, submit_job, run_route, handle_error, httpRequestError400, h]

/-- Witness for C5 at Content-Type `text/plain`. -/
theorem submit_job_content_type_reject_witness :
    matchesJson "text/plain" = false ∧
    http_submit_job demoWorld demoElook demoPlook [] "text/plain" (Json.obj []) =
      ((400, Json.obj [("error", Json.str "Could not handle input of type text/plain")]),
       [Effect.logged 40 "Could not handle input of type text/plain"], []) :=
  ⟨rfl, submit_job_content_type_reject demoWorld demoElook demoPlook [] "text/plain"
    (Json.obj []) rfl⟩

/-- C7: a JSON `POST /jobs` whose event `type` is present but not a key of
the event lookup table is answered with HTTP 404 and `{error: message}`,
the message containing the unrecognized type. -/
theorem submit_job_unknown_event_404 (w : World) (elook : List (String × List String))
    (plook : List (String × ProcRecord)) (hives : HiveCache)
    (content_type : String) (event : Json) (t : String)
    (hct : matchesJson content_type = true)
    (htype : event.getField "type" = some (Json.str t))
    (hlook : assocFind elook t = none) :
    http_submit_job w elook plook hives content_type event =
      ((404, Json.obj [("error", Json.str ("Event type " ++ t ++ " not known"))]),
       [Effect.logged 40 ("Event type " ++ t ++ " not known")], hives)
    ∧ ∃ pre post, "Event type " ++ t ++ " not known" = pre ++ t ++ post := by
  constructor
  · simp [http_submit_job, submit_job, get_processes_for_event, htype, hlook,
          Json.hashable, pyStr, run_route, handle_error, hct]
  · exact ⟨"Event type ", " not known", rfl⟩

/-- Witness for C7 at event type `no_such_event`. -/
theorem submit_job_unknown_event_404_witness :
    http_submit_job demoWorld demoElook demoPlook [] "application/json"
        (Json.obj [("type", Json.str "no_such_event")]) =
      ((404, Json.obj [("error", Json.str "Event type no_such_event not known")]),
       [Effect.logged 40 "Event type no_such_event not known"], [])
    ∧ ∃ pre post, "Event type no_such_event not known" = pre ++ "no_such_event" ++ post :=
  submit_job_unknown_event_404 demoWorld demoElook demoPlook [] "application/json"
    (Json.obj [("type", Json.str "no_such_event")]) "no_such_event" rfl rfl rfl

/-- C4 counterexample: a JSON `POST /jobs` whose event lacks the `type`
field does not get an InvalidInput-class error response — `event['type']`
raises an uncaught KeyError and the framework answers 500. -/
theorem submit_job_missing_type_cex :
    (submit_job demoWorld demoElook demoPlook [] "application/json"
        (Json.obj [("genome", Json.str "homo_sapiens")])).1 =
      .error (.uncaught "KeyError: type")
    ∧ (http_submit_job demoWorld demoElook demoPlook [] "application/json"
        (Json.obj [("genome", Json.str "homo_sapiens")])).1.1 = 500 :=
  ⟨rfl, rfl⟩

/-- C4 (amended): a JSON `POST /jobs` whose event lacks the `type` field
fails with an uncaught KeyError, answered by the framework as HTTP 500,
not as an InvalidInput-class error response. -/
theorem submit_job_missing_type_uncaught (w : World) (elook : List (String × List String))
    (plook : List (String × ProcRecord)) (hives : HiveCache)
    (content_type : String) (event : Json)
    (hct : matchesJson content_type = true)
    (htype : event.getField "type" = none) :
    http_submit_job w elook plook hives content_type event =
      ((500, Json.str "Internal Server Error"),
       [Effect.logged 40 "KeyError: type"], hives) := by
  simp [http_submit_job, submit_job, get_processes_for_event, htype, run_route,
        handle_error, hct]

/-- Witness for the amended C4. -/
theorem submit_job_missing_type_uncaught_witness :
    http_submit_job demoWorld demoElook demoPlook [] "application/json"
        (Json.obj [("genome", Json.str "homo_sapiens")]) =
      ((500, Json.str "Internal Server Error"), [Effect.logged 40 "KeyError: type"], []) :=
  submit_job_missing_type_uncaught demoWorld demoElook demoPlook [] "application/json"
    (Json.obj [("genome", Json.str "homo_sapiens")]) rfl rfl

/-- C8: `get_hive` keeps at most one connection per process name — a cached
name returns the cached object with the cache untouched; a known uncached
name constructs exactly one connection from the table's backend address and
appends it; an unknown name (under the reachable-state invariant that every
cached name is known) raises `ProcessNotFound` with the cache untouched;
and distinctness of cached names is preserved. -/
theorem get_hive_cache_invariant (plook : List (String × ProcRecord))
    (hives : HiveCache) (process : String) :
    (∀ h : HiveInstance, assocFind hives process = some h →
        get_hive plook hives process = (.ok h, hives))
    ∧ (∀ pr : ProcRecord, assocFind hives process = none →
        assocFind plook process = some pr →
        get_hive plook hives process =
          (.ok { hive_uri := pr.hive_uri },
           hives ++ [(process, { hive_uri := pr.hive_uri })]))
    ∧ (assocFind plook process = none →
        (∀ p h, assocFind hives p = some h → ∃ q, assocFind plook p = some q) →
        get_hive plook hives process =
          (.error (.processNotFound ("Process " ++ process ++ " not known")), hives))
    ∧ ((hives.map Prod.fst).Nodup →
        ((get_hive plook hives process).2.map Prod.fst).Nodup) := by
  refine ⟨?_, ?_, ?_, ?_⟩
  · intro h hc
    simp [get_hive, hc]
  · intro pr hn hp
    simp [get_hive, hn, hp]
  · intro hp hcoh
    cases hc : assocFind hives process with
    | some h =>
        obtain ⟨q, hq⟩ := hcoh process h hc
        rw [hp] at hq
        exact Option.noConfusion hq
    | none => simp [get_hive, hc, hp]
  · intro hnd
    cases hc : assocFind hives process with
    | some h => simp [get_hive, hc, hnd]
    | none =>
        cases hp : assocFind plook process with
        | none => simp [get_hive, hc, hp, hnd]
        | some pr =>
            have hnotin : process ∉ hives.map Prod.fst :=
              (assocFind_eq_none_iff hives process).1 hc
            simp [get_hive, hc, hp, List.nodup_append, hnd, hnotin]

/-- Witness for C8: first request for a known process constructs and caches
one connection; asking again returns the cached object unchanged. -/
theorem get_hive_cache_invariant_witness :
    get_hive demoPlook [] "proc_a" =
      (.ok { hive_uri := "mysql://a" }, [("proc_a", { hive_uri := "mysql://a" })])
    ∧ get_hive demoPlook [("proc_a", { hive_uri := "mysql://a" })] "proc_a" =
      (.ok { hive_uri := "mysql://a" }, [("proc_a", { hive_uri := "mysql://a" })]) :=
  ⟨(get_hive_cache_invariant demoPlook [] "proc_a").2.1
      { hive_uri := "mysql://a", analysis := "an_a" } rfl rfl,
   (get_hive_cache_invariant demoPlook [("proc_a", { hive_uri := "mysql://a" })] "proc_a").1
      { hive_uri := "mysql://a" } rfl⟩

/-- C9: on `DELETE /jobs/{process}/{jobId}`, a backend-rejected deletion is
answered with HTTP 404 and the connection cache (in particular the entry for
that process) is left unchanged; a successful deletion is answered with 200
and body `{id: jobId, process: process}`. -/
theorem delete_job_reject_404 (w : World) (plook : List (String × ProcRecord))
    (hives : HiveCache) (process : String) (job_id : Nat)
    (h : HiveInstance) (jb : Nat)
    (hc : assocFind hives process = some h)
    (hjob : w.get_job_by_id h.hive_uri job_id = .ok jb) :
    (∀ m, w.delete_job h.hive_uri jb = .error m →
        http_delete_job w plook hives process job_id =
          ((404, Json.obj [("error", Json.str m)]), [Effect.logged 40 m], hives)
        ∧ assocFind hives process = some h)
    ∧ (w.delete_job h.hive_uri jb = .ok () →
        http_delete_job w plook hives process job_id =
          ((200, Json.obj [("id", Json.num job_id), ("process", Json.str process)]),
           [Effect.jobDeleted h.hive_uri jb], hives)) := by
  constructor
  · intro m hm
    refine ⟨?_, hc⟩
    simp [http_delete_job, delete_job, get_hive, hc, hjob, hm, run_route, handle_error]
  · intro hd
    simp [http_delete_job, delete_job, get_hive, hc, hjob, hd, run_route]

/-- Witness for C9: a backend that refuses the deletion, then one that
accepts it, on the same cached connection. -/
theorem delete_job_reject_404_witness :
    http_delete_job { demoWorld with delete_job := fun _ _ => .error "Job 3 not finished" }
        demoPlook [("proc_a", { hive_uri := "mysql://a" })] "proc_a" 3 =
      ((404, Json.obj [("error", Json.str "Job 3 not finished")]),
       [Effect.logged 40 "Job 3 not finished"],
       [("proc_a", { hive_uri := "mysql://a" })])
    ∧ http_delete_job demoWorld demoPlook [("proc_a", { hive_uri := "mysql://a" })] "proc_a" 3 =
      ((200, Json.obj [("id", Json.num 3), ("process", Json.str "proc_a")]),
       [Effect.jobDeleted "mysql://a" 3],
       [("proc_a", { hive_uri := "mysql://a" })]) :=
  ⟨((delete_job_reject_404
      { demoWorld with delete_job := fun _ _ => .error "Job 3 not finished" }
      demoPlook [("proc_a", { hive_uri := "mysql://a" })] "proc_a" 3
      { hive_uri := "mysql://a" } 3 rfl rfl).1 "Job 3 not finished" rfl).1,
   (delete_job_reject_404 demoWorld demoPlook [("proc_a", { hive_uri := "mysql://a" })]
      "proc_a" 3 { hive_uri := "mysql://a" } 3 rfl rfl).2 rfl⟩

/-- C6: the `format` query parameter of `GET /jobs/{process}/{jobId}` is
dispatched as: absent → the raw backend result; `email` without the `email`
parameter → HTTP 400 "Email not specified"; `email` with a value → the
result document with the value attached under `email` (only report effects
occur — no email is sent); any other value → HTTP 400 "Format ... not
known". -/
theorem job_format_dispatch (w : World) (plook : List (String × ProcRecord))
    (hives : HiveCache) (process : String) (job_id : Nat) :
    (∀ (h : HiveInstance) (r : Json), assocFind hives process = some h →
        w.get_result_for_job_id h.hive_uri job_id = .ok r →
        ∃ effs, http_job w plook hives process job_id none none = ((200, r), effs, hives))
    ∧ (http_job w plook hives process job_id (some "email") none =
        ((400, Json.obj [("error", Json.str "Email not specified")]),
         [Effect.logged 40 "Email not specified"], hives))
    ∧ (∀ (h : HiveInstance) (jb : Nat) (fields : List (String × Json)) (e : String),
        assocFind hives process = some h →
        w.get_job_by_id h.hive_uri job_id = .ok jb →
        w.get_result_for_job_id h.hive_uri job_id = .ok (Json.obj fields) →
        ∃ effs, http_job w plook hives process job_id (some "email") (some e) =
            ((200, Json.obj (setAssoc fields "email" (Json.str e))), effs, hives)
          ∧ ∀ x ∈ effs, x.isReport = true)
    ∧ (∀ (f : String) (email_arg : Option String), f ≠ "email" →
        http_job w plook hives process job_id (some f) email_arg =
          ((400, Json.obj [("error", Json.str ("Format " ++ f ++ " not known"))]),
           [Effect.logged 40 ("Format " ++ f ++ " not known")], hives)) := by
  refine ⟨?_, ?_, ?_, ?_⟩
  · intro h r hc hr
    refine ⟨[Effect.logged 20 ("Retrieving job from " ++ process ++ " with ID " ++ toString job_id)] ++
      publisherPublish w.publishOk
        (make_report "INFO" ("Retrieving job from " ++ process ++ " with ID " ++ toString job_id))
        "report.info", ?_⟩
    simp [http_job, job, results, log_and_publish_INFO, get_hive, hc, hr, run_route]
  · simp [http_job, job, run_route, handle_error, httpRequestError400]
  · intro h jb fields e hc hjob hres
    refine ⟨[Effect.logged 20 ("Retrieving job with ID " ++ toString job_id ++ " for " ++ e)] ++
      publisherPublish w.publishOk
        (make_report "INFO" ("Retrieving job with ID " ++ toString job_id ++ " for " ++ e))
        "report.info", ?_, ?_⟩
    · simp [http_job, job, results_email, log_and_publish_INFO, get_hive, hc, hjob, hres, run_route]
    · intro x hx
      cases hpk : w.publishOk <;> simp [publisherPublish, hpk] at hx <;>
        rcases hx with rfl | rfl <;> rfl
  · intro f email_arg hf
    simp [http_job, job, run_route, handle_error, httpRequestError400, hf]

/-- Witness for C6 at a cached process with a completed result. -/
theorem job_format_dispatch_witness :
    (∃ effs, http_job demoWorld demoPlook [("proc_a", { hive_uri := "mysql://a" })] "proc_a" 1
        none none =
      ((200, Json.obj [("status", Json.str "complete")]), effs,
       [("proc_a", { hive_uri := "mysql://a" })]))
    ∧ (http_job demoWorld demoPlook [("proc_a", { hive_uri := "mysql://a" })] "proc_a" 1
        (some "email") none =
      ((400, Json.obj [("error", Json.str "Email not specified")]),
       [Effect.logged 40 "Email not specified"], [("proc_a", { hive_uri := "mysql://a" })]))
    ∧ (∃ effs, http_job demoWorld demoPlook [("proc_a", { hive_uri := "mysql://a" })] "proc_a" 1
        (some "email") (some "a@b.com") =
      ((200, Json.obj [("status", Json.str "complete"), ("email", Json.str "a@b.com")]), effs,
       [("proc_a", { hive_uri := "mysql://a" })])
      ∧ ∀ x ∈ effs, x.isReport = true)
    ∧ (http_job demoWorld demoPlook [("proc_a", { hive_uri := "mysql://a" })] "proc_a" 1
        (some "bogus") none =
      ((400, Json.obj [("error", Json.str "Format bogus not known")]),
       [Effect.logged 40 "Format bogus not known"], [("proc_a", { hive_uri := "mysql://a" })])) :=
  ⟨(job_format_dispatch demoWorld demoPlook [("proc_a", { hive_uri := "mysql://a" })]
      "proc_a" 1).1 { hive_uri := "mysql://a" } (Json.obj [("status", Json.str "complete")]) rfl rfl,
   (job_format_dispatch demoWorld demoPlook [("proc_a", { hive_uri := "mysql://a" })]
      "proc_a" 1).2.1,
   (job_format_dispatch demoWorld demoPlook [("proc_a", { hive_uri := "mysql://a" })]
      "proc_a" 1).2.2.1 { hive_uri := "mysql://a" } 1 [("status", Json.str "complete")]
      "a@b.com" rfl rfl rfl,
   (job_format_dispatch demoWorld demoPlook [("proc_a", { hive_uri := "mysql://a" })]
      "proc_a" 1).2.2.2 "bogus" none (by decide)⟩

/-- C10: `format=email` with an `email` parameter that is present but empty
is not rejected — the `email == None` check only fires when the parameter is
absent; the result document carries `"email": ""`. -/
theorem job_email_empty_string (w : World) (plook : List (String × ProcRecord))
    (hives : HiveCache) (process : String) (job_id : Nat)
    (h : HiveInstance) (jb : Nat) (fields : List (String × Json))
    (hc : assocFind hives process = some h)
    (hjob : w.get_job_by_id h.hive_uri job_id = .ok jb)
    (hres : w.get_result_for_job_id h.hive_uri job_id = .ok (Json.obj fields)) :
    ∃ effs,
      http_job w plook hives process job_id (some "email") (some "") =
        ((200, Json.obj (setAssoc fields "email" (Json.str ""))), effs, hives)
      ∧ http_job w plook hives process job_id (some "email") (some "") ≠
        ((400, Json.obj [("error", Json.str "Email not specified")]),
         [Effect.logged 40 "Email not specified"], hives) := by
  refine ⟨[Effect.logged 20 ("Retrieving job with ID " ++ toString job_id ++ " for ")] ++
    publisherPublish w.publishOk
      (make_report "INFO" ("Retrieving job with ID " ++ toString job_id ++ " for "))
      "report.info", ?_, ?_⟩
  · simp [http_job, job, results_email, log_and_publish_INFO, get_hive, hc, hjob, hres, run_route]
  · have heq :
        http_job w plook hives process job_id (some "email") (some "") =
          ((200, Json.obj (setAssoc fields "email" (Json.str ""))),
           [Effect.logged 20 ("Retrieving job with ID " ++ toString job_id ++ " for ")] ++
             publisherPublish w.publishOk
               (make_report "INFO" ("Retrieving job with ID " ++ toString job_id ++ " for "))
               "report.info", hives) := by
      simp [http_job, job, results_email, log_and_publish_INFO, get_hive, hc, hjob, hres, run_route]
    rw [heq]
    intro hcontra
    have : (200 : Nat) = 400 := congrArg (fun x => x.1.1) hcontra
    exact absurd this (by decide)

/-- Witness for C10 with a cached process and a completed result. -/
theorem job_email_empty_string_witness :
    ∃ effs,
      http_job demoWorld demoPlook [("proc_a", { hive_uri := "mysql://a" })] "proc_a" 1
          (some "email") (some "") =
        ((200, Json.obj [("status", Json.str "complete"), ("email", Json.str "")]), effs,
         [("proc_a", { hive_uri := "mysql://a" })])
      ∧ http_job demoWorld demoPlook [("proc_a", { hive_uri := "mysql://a" })] "proc_a" 1
          (some "email") (some "") ≠
        ((400, Json.obj [("error", Json.str "Email not specified")]),
         [Effect.logged 40 "Email not specified"], [("proc_a", { hive_uri := "mysql://a" })]) :=
  job_email_empty_string demoWorld demoPlook [("proc_a", { hive_uri := "mysql://a" })]
    "proc_a" 1 { hive_uri := "mysql://a" } 1 [("status", Json.str "complete")] rfl rfl rfl

lemma submit_loop_eq_core (w : World) (plook : List (String × ProcRecord)) (event : Json)
    (ps : List String) :
    ∀ hives : HiveCache,
      (submit_loop w plook event ps hives).1 =
        (submit_loop_core w.create_job w.delay_id plook event ps hives).1
      ∧ (submit_loop w plook event ps hives).2.2 =
        (submit_loop_core w.create_job w.delay_id plook event ps hives).2 := by
  induction ps with
  | nil => intro hives; exact ⟨rfl, rfl⟩
  | cons p rest ih =>
      intro hives
      rcases hgh : get_hive plook hives p with ⟨res, hives1⟩
      cases res with
      | error e =>
          constructor <;>
            simp [submit_loop, submit_loop_core, log_and_publish_DEBUG, hgh]
      | ok hive =>
          cases hga : get_analysis plook p with
          | error e =>
              constructor <;>
                simp [submit_loop, submit_loop_core, log_and_publish_DEBUG, hgh, hga]
          | ok analysis =>
              cases hcj : w.create_job hive.hive_uri analysis (Json.obj [("event", event)]) with
              | error m =>
                  constructor <;>
                    simp [submit_loop, submit_loop_core, log_and_publish_DEBUG, hgh, hga, hcj]
              | ok jid =>
                  obtain ⟨ih1, ih2⟩ := ih hives1
                  rcases hs : submit_loop w plook event rest hives1 with ⟨r1, e1, c1⟩
                  rcases hsc : submit_loop_core w.create_job w.delay_id plook event rest hives1
                    with ⟨r2, c2⟩
                  rw [hs, hsc] at ih1 ih2
                  simp at ih1 ih2
                  subst ih1
                  subst ih2
                  constructor <;>
                    · simp [submit_loop, submit_loop_core, log_and_publish_DEBUG,
                            hgh, hga, hcj, hs, hsc]
                      cases r1 <;> simp

lemma http_submit_job_fst (w : World) (elook : List (String × List String))
    (plook : List (String × ProcRecord)) (hives : HiveCache)
    (ct : String) (event : Json) :
    (http_submit_job w elook plook hives ct event).1 =
      match (submit_job_core w.create_job w.delay_id elook plook hives ct event).1 with
      | .ok j => (200, j)
      | .error e => (handle_error e).1 := by
  unfold http_submit_job run_route submit_job submit_job_core
  by_cases hct : matchesJson ct
  · simp only [hct, if_true]
    cases hev : get_processes_for_event elook event with
    | error e => simp [hev]
    | ok ps =>
        obtain ⟨h1, _h2⟩ := submit_loop_eq_core w plook event ps hives
        rcases hs : submit_loop w plook event ps hives with ⟨r1, e1, c1⟩
        rcases hsc : submit_loop_core w.create_job w.delay_id plook event ps hives with ⟨r2, c2⟩
        rw [hs, hsc] at h1
        simp at h1
        subst h1
        cases r1 <;> simp [hs, hsc]
  · simp [hct]

lemma results_publish_indep (w : World) (a b : Bool) (plook : List (String × ProcRecord))
    (hives : HiveCache) (process : String) (job_id : Nat) :
    (results { w with publishOk := a } plook hives process job_id).1 =
    (results { w with publishOk := b } plook hives process job_id).1 := by
  simp only [results, log_and_publish_INFO]
  rcases hgh : get_hive plook hives process with ⟨res, hives1⟩
  cases res with
  | error e => simp
  | ok hive =>
      cases hr : w.get_result_for_job_id hive.hive_uri job_id with
      | error m => simp [hr]
      | ok r => simp [hr]

lemma results_email_publish_indep (w : World) (a b : Bool) (plook : List (String × ProcRecord))
    (hives : HiveCache) (email : String) (process : String) (job_id : Nat) :
    (results_email { w with publishOk := a } plook hives email process job_id).1 =
    (results_email { w with publishOk := b } plook hives email process job_id).1 := by
  simp only [results_email, log_and_publish_INFO]
  rcases hgh : get_hive plook hives process with ⟨res, hives1⟩
  cases res with
  | error e => simp
  | ok hive =>
      cases hj : w.get_job_by_id hive.hive_uri job_id with
      | error m => simp [hj]
      | ok jb =>
          cases hr : w.get_result_for_job_id hive.hive_uri job_id with
          | error m => simp [hj, hr]
          | ok r => cases r <;> simp [hj, hr]

lemma job_publish_indep (w : World) (a b : Bool) (plook : List (String × ProcRecord))
    (hives : HiveCache) (process : String) (job_id : Nat) (fmt em : Option String) :
    (job { w with publishOk := a } plook hives process job_id fmt em).1 =
    (job { w with publishOk := b } plook hives process job_id fmt em).1 := by
  cases fmt with
  | none => exact results_publish_indep w a b plook hives process job_id
  | some f =>
      by_cases hf : f = "email"
      · subst hf
        cases em with
        | none => rfl
        | some e => exact results_email_publish_indep w a b plook hives e process job_id
      · simp [job, hf]

lemma run_route_fst_congr (r1 r2 : Except AppError Json × List Effect × HiveCache)
    (h : r1.1 = r2.1) : (run_route r1).1 = (run_route r2).1 := by
  rcases r1 with ⟨res1, e1, c1⟩
  rcases r2 with ⟨res2, e2, c2⟩
  simp at h
  subst h
  cases res1 <;> rfl

/-- C2: `log_and_publish` writes the message to the local log at the severity
named by the level and publishes it with routing key `report.` + lowercased
level; when the bus is down the local log entry still happens (only a failed
publish is recorded), and the triggering request cannot fail because of it —
the responses of `POST /jobs` and `GET /jobs/{process}/{jobId}` do not
depend on message-bus reachability. -/
theorem log_and_publish_report (level msg : String) (pk : Bool) (sev : Nat)
    (hsev : getattrLogging level = some sev) :
    (∃ effs, log_and_publish pk (make_report level msg) = .ok effs
      ∧ Effect.logged sev msg ∈ effs
      ∧ (pk = true →
          Effect.published ("report." ++ pyLower level) (make_report level msg) ∈ effs)
      ∧ (pk = false →
          Effect.publishFailed ("report." ++ pyLower level) (make_report level msg) ∈ effs))
    ∧ (∀ (w : World) (elook : List (String × List String)) (plook : List (String × ProcRecord))
          (hives : HiveCache) (ct : String) (event : Json) (a b : Bool),
        (http_submit_job { w with publishOk := a } elook plook hives ct event).1 =
          (http_submit_job { w with publishOk := b } elook plook hives ct event).1)
    ∧ (∀ (w : World) (plook : List (String × ProcRecord)) (hives : HiveCache)
          (process : String) (job_id : Nat) (fmt em : Option String) (a b : Bool),
        (http_job { w with publishOk := a } plook hives process job_id fmt em).1 =
          (http_job { w with publishOk := b } plook hives process job_id fmt em).1) := by
  refine ⟨?_, ?_, ?_⟩
  · refine ⟨[Effect.logged sev msg] ++
      publisherPublish pk (make_report level msg) ("report." ++ pyLower level),
      ?_, ?_, ?_, ?_⟩
    · simp [log_and_publish, make_report, hsev]
    · simp
    · intro hpk; simp [publisherPublish, hpk]
    · intro hpk; simp [publisherPublish, hpk]
  · intro w elook plook hives ct event a b
    rw [http_submit_job_fst, http_submit_job_fst]
  · intro w plook hives process job_id fmt em a b
    exact run_route_fst_congr _ _ (job_publish_indep w a b plook hives process job_id fmt em)

/-- Witness for C2 at `publishReport('ERROR', 'x')` with the bus down. -/
theorem log_and_publish_report_witness :
    getattrLogging "ERROR" = some 40
    ∧ (∃ effs, log_and_publish false (make_report "ERROR" "x") = .ok effs
        ∧ Effect.logged 40 "x" ∈ effs
        ∧ (false = true →
            Effect.published ("report." ++ pyLower "ERROR") (make_report "ERROR" "x") ∈ effs)
        ∧ (false = false →
            Effect.publishFailed ("report." ++ pyLower "ERROR") (make_report "ERROR" "x") ∈ effs)) :=
  ⟨rfl, (log_and_publish_report "ERROR" "x" false 40 rfl).1⟩

/-- The `submit_job` loop on processes that are all known, cache-coherent and
whose job creations all succeed: it returns one `{process, job, task}` entry
per process, in list order, and its effect trace is the concatenation of the
per-process step effects. -/
lemma submit_loop_ok (w : World) (plook : List (String × ProcRecord)) (event : Json)
    (rc : String → ProcRecord) (jid : String → Nat) (ps : List String) :
    ∀ hives : HiveCache,
    (∀ p ∈ ps, assocFind plook p = some (rc p)) →
    (∀ p ∈ ps, ∀ h : HiveInstance, assocFind hives p = some h → h.hive_uri = (rc p).hive_uri) →
    (∀ p ∈ ps, w.create_job (rc p).hive_uri (rc p).analysis (Json.obj [("event", event)]) =
        .ok (jid p)) →
    ∃ hives', submit_loop w plook event ps hives =
      (.ok (ps.map (fun p => submitEntry w p (jid p))),
       (ps.map (fun p => stepEffects w event (rc p) p (jid p))).join,
       hives') := by
  induction ps with
  | nil => intro hives _ _ _; exact ⟨hives, rfl⟩
  | cons p rest ih =>
      intro hives hproc hcache hjob
      obtain ⟨hives1, hgh, hchar⟩ :=
        get_hive_coherent plook hives p (rc p) (hproc p (List.mem_cons_self p rest))
          (fun h hh => hcache p (List.mem_cons_self p rest) h hh)
      have hcoh1 : ∀ q ∈ rest, ∀ h : HiveInstance,
          assocFind hives1 q = some h → h.hive_uri = (rc q).hive_uri := by
        intro q hq h hh
        rcases hchar q h hh with hold | ⟨rfl, rfl⟩
        · exact hcache q (List.mem_cons_of_mem p hq) h hold
        · rfl
      obtain ⟨hives2, hrec⟩ := ih hives1
        (fun q hq => hproc q (List.mem_cons_of_mem p hq))
        hcoh1
        (fun q hq => hjob q (List.mem_cons_of_mem p hq))
      refine ⟨hives2, ?_⟩
      have hga : get_analysis plook p = .ok (rc p).analysis := by
        simp [get_analysis, hproc p (List.mem_cons_self p rest)]
      have hcj := hjob p (List.mem_cons_self p rest)
      simp only [submit_loop, log_and_publish_DEBUG, hgh, hga, hcj, hrec]
      simp [stepEffects, debugEffects, submitEntry, List.append_assoc]

/-- C1: a JSON `POST /jobs` whose event type maps to the process list `ps`,
with all job creations succeeding, is answered 200 with a `processes` array
holding exactly one `{process, job, task}` entry per process of `ps`, in
table order, and the original event under `event`. -/
theorem submit_job_fanout (w : World) (elook : List (String × List String))
    (plook : List (String × ProcRecord)) (hives : HiveCache)
    (content_type : String) (event : Json) (t : String) (ps : List String)
    (rc : String → ProcRecord) (jid : String → Nat)
    (hct : matchesJson content_type = true)
    (htype : event.getField "type" = some (Json.str t))
    (hlook : assocFind elook t = some ps)
    (hproc : ∀ p ∈ ps, assocFind plook p = some (rc p))
    (hcache : ∀ p ∈ ps, ∀ h : HiveInstance, assocFind hives p = some h →
        h.hive_uri = (rc p).hive_uri)
    (hjob : ∀ p ∈ ps, w.create_job (rc p).hive_uri (rc p).analysis
        (Json.obj [("event", event)]) = .ok (jid p)) :
    ∃ effs hives',
      http_submit_job w elook plook hives content_type event =
        ((200, Json.obj [("processes", Json.arr (ps.map (fun p => submitEntry w p (jid p)))),
                         ("event", event)]),
         effs, hives')
      ∧ (ps.map (fun p => submitEntry w p (jid p))).length = ps.length := by
  obtain ⟨hives', hloop⟩ := submit_loop_ok w plook event rc jid ps hives hproc hcache hjob
  refine ⟨(ps.map (fun p => stepEffects w event (rc p) p (jid p))).join, hives', ?_, by simp⟩
  simp [http_submit_job, submit_job, get_processes_for_event, htype, hlook, hct,
        Json.hashable, hloop, run_route]

/-- Witness for C1: the demo event type fans out to its two processes. -/
theorem submit_job_fanout_witness :
    ∃ effs hives',
      http_submit_job demoWorld demoElook demoPlook [] "application/json"
          (Json.obj [("type", Json.str "assembly")]) =
        ((200, Json.obj [("processes", Json.arr (["proc_a", "proc_b"].map (fun p =>
              submitEntry demoWorld p 7))),
          ("event", Json.obj [("type", Json.str "assembly")])]),
         effs, hives')
      ∧ (["proc_a", "proc_b"].map (fun p => submitEntry demoWorld p 7)).length =
          ["proc_a", "proc_b"].length :=
  submit_job_fanout demoWorld demoElook demoPlook [] "application/json"
    (Json.obj [("type", Json.str "assembly")]) "assembly" ["proc_a", "proc_b"]
    (fun p => if p = "proc_a" then { hive_uri := "mysql://a", analysis := "an_a" }
              else { hive_uri := "mysql://b", analysis := "an_b" })
    (fun _ => 7) rfl rfl rfl (by decide)
    (fun _ _ h hh => Option.noConfusion hh)
    (fun _ _ => rfl)

/-- The `submit_job` loop when job creation fails at `pfail` after the
processes of `pre` all succeeded: the loop aborts with
`HTTPRequestError(m, 404)`, its trace keeping the jobs created for `pre`. -/
lemma submit_loop_fail (w : World) (plook : List (String × ProcRecord)) (event : Json)
    (rc : String → ProcRecord) (jid : String → Nat) (m : String)
    (pfail : String) (rest : List String) (pre : List String) :
    ∀ hives : HiveCache,
    (∀ p ∈ pre, assocFind plook p = some (rc p)) →
    (∀ p ∈ pre ++ [pfail], ∀ h : HiveInstance, assocFind hives p = some h →
        h.hive_uri = (rc p).hive_uri) →
    (∀ p ∈ pre, w.create_job (rc p).hive_uri (rc p).analysis (Json.obj [("event", event)]) =
        .ok (jid p)) →
    assocFind plook pfail = some (rc pfail) →
    w.create_job (rc pfail).hive_uri (rc pfail).analysis (Json.obj [("event", event)]) =
        .error m →
    ∃ hives', submit_loop w plook event (pre ++ pfail :: rest) hives =
      (.error (.httpRequestError m 404),
       (pre.map (fun p => stepEffects w event (rc p) p (jid p))).join ++
         debugEffects w.publishOk pfail,
       hives') := by
  induction pre with
  | nil =>
      intro hives _ hcache _ hprocf hfail
      obtain ⟨hives1, hgh, _⟩ :=
        get_hive_coherent plook hives pfail (rc pfail) hprocf
          (fun h hh => hcache pfail (by simp) h hh)
      have hga : get_analysis plook pfail = .ok (rc pfail).analysis := by
        simp [get_analysis, hprocf]
      refine ⟨hives1, ?_⟩
      simp only [List.nil_append, submit_loop, log_and_publish_DEBUG, hgh, hga, hfail]
      simp [debugEffects]
  | cons p pre' ih =>
      intro hives hproc hcache hjob hprocf hfail
      obtain ⟨hives1, hgh, hchar⟩ :=
        get_hive_coherent plook hives p (rc p) (hproc p (List.mem_cons_self p pre'))
          (fun h hh => hcache p (by simp) h hh)
      have hcoh1 : ∀ q ∈ pre' ++ [pfail], ∀ h : HiveInstance,
          assocFind hives1 q = some h → h.hive_uri = (rc q).hive_uri := by
        intro q hq h hh
        rcases hchar q h hh with hold | ⟨rfl, rfl⟩
        · refine hcache q ?_ h hold
          rcases List.mem_append.1 hq with hq | hq
          · exact List.mem_append_left _ (List.mem_cons_of_mem p hq)
          · exact List.mem_append_right _ hq
        · rfl
      obtain ⟨hives2, hrec⟩ := ih hives1
        (fun q hq => hproc q (List.mem_cons_of_mem p hq))
        hcoh1
        (fun q hq => hjob q (List.mem_cons_of_mem p hq))
        hprocf hfail
      refine ⟨hives2, ?_⟩
      have hga : get_analysis plook p = .ok (rc p).analysis := by
        simp [get_analysis, hproc p (List.mem_cons_self p pre')]
      have hcj := hjob p (List.mem_cons_self p pre')
      simp only [List.cons_append, List.append_eq, submit_loop, log_and_publish_DEBUG,
                 hgh, hga, hcj, hrec]
      simp [stepEffects, debugEffects, List.append_assoc]

/-- C3: on a multi-process event submission, a job-creation failure after
earlier processes succeeded leaves the earlier jobs created (their creation
effects stand, and no deletion effect ever occurs — no rollback), and the
request completes with the error response for the failed process, which does
not report the earlier jobs. -/
theorem submit_job_no_rollback (w : World) (elook : List (String × List String))
    (plook : List (String × ProcRecord)) (hives : HiveCache)
    (content_type : String) (event : Json) (t : String)
    (pre : List String) (pfail : String) (rest : List String)
    (rc : String → ProcRecord) (jid : String → Nat) (m : String)
    (hct : matchesJson content_type = true)
    (htype : event.getField "type" = some (Json.str t))
    (hlook : assocFind elook t = some (pre ++ pfail :: rest))
    (hproc : ∀ p ∈ pre, assocFind plook p = some (rc p))
    (hprocf : assocFind plook pfail = some (rc pfail))
    (hcache : ∀ p ∈ pre ++ [pfail], ∀ h : HiveInstance, assocFind hives p = some h →
        h.hive_uri = (rc p).hive_uri)
    (hjob : ∀ p ∈ pre, w.create_job (rc p).hive_uri (rc p).analysis
        (Json.obj [("event", event)]) = .ok (jid p))
    (hfail : w.create_job (rc pfail).hive_uri (rc pfail).analysis
        (Json.obj [("event", event)]) = .error m) :
    ∃ effs hives',
      http_submit_job w elook plook hives content_type event =
        ((404, Json.obj [("error", Json.str m)]), effs, hives')
      ∧ (∀ p ∈ pre, Effect.jobCreated (rc p).hive_uri (rc p).analysis
          (Json.obj [("event", event)]) (jid p) ∈ effs)
      ∧ (∀ uri j, Effect.jobDeleted uri j ∉ effs) := by
  obtain ⟨hives', hloop⟩ :=
    submit_loop_fail w plook event rc jid m pfail rest pre hives hproc hcache hjob hprocf hfail
  refine ⟨((pre.map (fun p => stepEffects w event (rc p) p (jid p))).join ++
      debugEffects w.publishOk pfail) ++ [Effect.logged 40 m], hives', ?_, ?_, ?_⟩
  · simp [http_submit_job, submit_job, get_processes_for_event, htype, hlook, hct,
          Json.hashable, hloop, run_route, handle_error]
  · intro p hp
    apply List.mem_append_left
    apply List.mem_append_left
    refine List.mem_join.2 ⟨stepEffects w event (rc p) p (jid p), List.mem_map_of_mem _ hp, ?_⟩
    simp [stepEffects, debugEffects]
  · intro uri j hmem
    rcases List.mem_append.1 hmem with hmem | hmem
    · rcases List.mem_append.1 hmem with hmem | hmem
      · obtain ⟨l, hl, hx⟩ := List.mem_join.1 hmem
        obtain ⟨p, _hp, rfl⟩ := List.mem_map.1 hl
        revert hx
        cases hpk : w.publishOk <;>
          simp [stepEffects, debugEffects, publisherPublish, hpk]
      · revert hmem
        cases hpk : w.publishOk <;> simp [debugEffects, publisherPublish, hpk]
    · simp at hmem

/-- Witness for C3: `proc_a` succeeds, then `proc_b`'s creation fails. -/
theorem submit_job_no_rollback_witness :
    ∃ effs hives',
      http_submit_job
          { demoWorld with create_job := fun uri _ _ =>
              if uri = "mysql://a" then .ok 7 else .error "Unknown analysis" }
          demoElook demoPlook [] "application/json" (Json.obj [("type", Json.str "assembly")]) =
        ((404, Json.obj [("error", Json.str "Unknown analysis")]), effs, hives')
      ∧ (∀ p ∈ ["proc_a"], Effect.jobCreated "mysql://a" "an_a"
          (Json.obj [("event", Json.obj [("type", Json.str "assembly")])]) 7 ∈ effs)
      ∧ (∀ uri j, Effect.jobDeleted uri j ∉ effs) := by
  obtain ⟨effs, hives', h1, h2, h3⟩ :=
    submit_job_no_rollback
      { demoWorld with create_job := fun uri _ _ =>
          if uri = "mysql://a" then .ok 7 else .error "Unknown analysis" }
      demoElook demoPlook [] "application/json" (Json.obj [("type", Json.str "assembly")])
      "assembly" ["proc_a"] "proc_b" []
      (fun p => if p = "proc_a" then { hive_uri := "mysql://a", analysis := "an_a" }
                else { hive_uri := "mysql://b", analysis := "an_b" })
      (fun _ => 7) "Unknown analysis"
      rfl rfl rfl (by decide) rfl
      (fun _ _ h hh => Option.noConfusion hh)
      (by intro p hp; simp at hp; subst hp; rfl) rfl
  refine ⟨effs, hives', h1, ?_, h3⟩
  intro p hp
  simp at hp
  subst hp
  exact h2 "proc_a" (by simp)

end EventApp
